import Mathlib

/-!
# Gap check of the geometry checker (qgsgeometrygapcheck.cpp)

A shallow embedding of `QgsGeometryGapCheck::collectErrors`, `fixError` and
`mergeWithNeighbor`.

Modelling conventions
* `double` values are rationals (exact arithmetic, no NaN, no rounding).
* Pointers that the source tests against null, or that an engine call may
  return as null, are `Option` values.  A run that dereferences a null pointer
  has no result: the embedded functions then return `none`.
* `QString` is `String`, `tr` is the identity and `tr( "... %1" ).arg( s )`
  is concatenation.
* `QMap<QString, QgsFeatureIds>` is an association list kept in ascending key
  order; a `QgsFeatureIds` set is a duplicate-free list whose order is the
  iteration order of the set.
* The geometry engine, the geometry primitives, the feature pools and the
  layer transforms are external to the file: they are fields of `Context`.
  Every layer named by a neighbour map is assumed to have a feature pool.
* The optional progress counter is touched once on entry and plays no part in
  the computed errors or messages; it is not threaded through `collectErrors`.
-/

namespace GapCheck

/-! ## Data model -/

/-- Modelled from the spec: `QgsRectangle` is not part of the file; it is the
axis-aligned box of the data model, compared field by field. -/
structure QgsRectangle where
  xMinimum : ℚ
  yMinimum : ℚ
  xMaximum : ℚ
  yMaximum : ℚ
deriving DecidableEq

/-- Modelled from the spec: `QgsRectangle::combineExtentWith`, the smallest
axis-aligned box that contains both boxes ("expanded to include"). -/
def QgsRectangle.combineExtentWith (r rect : QgsRectangle) : QgsRectangle :=
  { xMinimum := min r.xMinimum rect.xMinimum
    yMinimum := min r.yMinimum rect.yMinimum
    xMaximum := max r.xMaximum rect.xMaximum
    yMaximum := max r.yMaximum rect.yMaximum }

/-- Box `r` contains box `s`. -/
def QgsRectangle.containsRect (r s : QgsRectangle) : Prop :=
  r.xMinimum ≤ s.xMinimum ∧ r.yMinimum ≤ s.yMinimum ∧
    s.xMaximum ≤ r.xMaximum ∧ s.yMaximum ≤ r.yMaximum

instance (r s : QgsRectangle) : Decidable (r.containsRect s) := by
  unfold QgsRectangle.containsRect; infer_instance

/-- The type `QgsFeatureIds`: a set of feature ids, in iteration order. -/
abbrev QgsFeatureIds := List Int

/-- The type `QMap<QString, QgsFeatureIds>`: layer id to feature ids. -/
abbrev LayerIdMap := List (String × QgsFeatureIds)

/-- The call `QSet::insert`. -/
def QgsFeatureIds.insert (s : QgsFeatureIds) (fid : Int) : QgsFeatureIds :=
  if fid ∈ s then s else s ++ [fid]

/-- The call `QMap::keys`. -/
def LayerIdMap.keys (m : LayerIdMap) : List String := m.map Prod.fst

/-- The call `QMap::value`: the default value (the empty set) for a missing key. -/
def LayerIdMap.value (m : LayerIdMap) (layerId : String) : QgsFeatureIds :=
  match m.lookup layerId with
  | some s => s
  | none => []

/-- The statement `m[layerId].insert( fid )`: the entry is created when missing. -/
def LayerIdMap.insertId : LayerIdMap → String → Int → LayerIdMap
  | [], layerId, fid => [(layerId, QgsFeatureIds.insert [] fid)]
  | (k, s) :: rest, layerId, fid =>
    if layerId = k then (k, QgsFeatureIds.insert s fid) :: rest
    else if layerId < k then (layerId, QgsFeatureIds.insert [] fid) :: (k, s) :: rest
    else (k, s) :: LayerIdMap.insertId rest layerId fid

/-- One item of a `LayerFeatures` iteration: layer, feature and its geometry. -/
structure LayerFeature (Geom : Type) where
  layerId : String
  featureId : Int
  geometry : Geom
deriving DecidableEq

/-- A feature fetched from a pool. -/
structure QgsFeature (Geom : Type) where
  id : Int
  geometry : Geom
deriving DecidableEq

/-- Modelled from the spec: the resolution state of an error (the setters
`setFixed` and `setFixFailed` of the error base class are not part of the file):
fixed records the method, fix-failed records the message. -/
inductive Status where
  | StatusPending : Status
  | StatusFixed : Int → Status
  | StatusFixFailed : String → Status
deriving DecidableEq

/-- The class `QgsGeometryGapCheckError`: geometry, neighbours, area and the
box of the affected area, with the resolution state. -/
structure QgsGeometryGapCheckError (Geom : Type) where
  geometry : Geom
  neighbors : LayerIdMap
  area : ℚ
  affectedAreaBBox : QgsRectangle
  status : Status := Status.StatusPending
deriving DecidableEq

/-- Modelled from the spec: a `MergeInstruction`, the arguments of one call of
`replaceFeatureGeometryPart` (the function itself is not part of the file). -/
structure MergeInstruction (Geom : Type) where
  layerId : String
  feature : QgsFeature Geom
  partIdx : Int
  newPartGeom : Geom
deriving DecidableEq

/-- Modelled from the spec: the `Changes` argument, as the sequence of geometry
replacements issued so far. -/
abbrev Changes (Geom : Type) := List (MergeInstruction Geom)

/-- Modelled from the spec: `replaceFeatureGeometryPart` hands the replacement
to the feature-mutation collaborator; here it is recorded in `changes`. -/
def replaceFeatureGeometryPart {Geom : Type} (layerId : String) (feature : QgsFeature Geom)
    (partIdx : Int) (newPartGeom : Geom) (changes : Changes Geom) : Changes Geom :=
  changes ++ [{ layerId := layerId, feature := feature, partIdx := partIdx,
                newPartGeom := newPartGeom }]

/-- The constant `GEOSBUF_CAP_SQUARE` of geos_c.h. -/
def GEOSBUF_CAP_SQUARE : Int := 3

/-- The constant `GEOSBUF_JOIN_MITRE` of geos_c.h. -/
def GEOSBUF_JOIN_MITRE : Int := 2

/-- The enumerator `MergeLongestEdge` of `ResolutionMethod`. -/
def MergeLongestEdge : Int := 0

/-- The enumerator `NoChange` of `ResolutionMethod`. -/
def NoChange : Int := 1

/-- Everything the check reads from outside: configuration, feature access,
geometry primitives and the geometry engine.  An engine call that takes
`&errMsg` receives the current message and returns the pointer it produced
together with the message afterwards. -/
structure Context (Geom : Type) where
  tolerance : ℚ
  reducedTolerance : ℚ
  thresholdMapUnits : ℚ
  allLayerFeatureIds : LayerIdMap
  layerFeatures : LayerIdMap → List (LayerFeature Geom)
  layerFeaturesInBBox : List String → QgsRectangle → List (LayerFeature Geom)
  getFeature : String → Int → Option (QgsFeature Geom)
  reverseLayerTransform : String → Geom → Geom
  boundingBox : Geom → QgsRectangle
  area : Geom → ℚ
  partCount : Geom → Nat
  getGeomPart : Geom → Int → Geom
  isEmpty : Geom → Bool
  isSingleType : Geom → Bool
  sharedEdgeLength : Geom → Geom → ℚ → ℚ
  combine : ℚ → List Geom → String → Option Geom × String
  envelope : ℚ → Geom → String → Option Geom × String
  buffer : ℚ → Geom → ℚ → Int → Int → Int → ℚ → Option Geom
  difference : ℚ → Option Geom → Geom → String → Option Geom × String
  combineWith : ℚ → Geom → Geom → String → Option Geom × String

variable {Geom : Type}

/-! ## collectErrors -/

/-- Lines 99-106: one step of the neighbour loop. -/
def neighborStep (ctx : Context Geom) (gapGeom : Geom)
    (acc : LayerIdMap × QgsRectangle) (layerFeature : LayerFeature Geom) :
    LayerIdMap × QgsRectangle :=
  if ctx.sharedEdgeLength gapGeom layerFeature.geometry ctx.reducedTolerance > 0 then
    (acc.1.insertId layerFeature.layerId layerFeature.featureId,
     acc.2.combineExtentWith (ctx.boundingBox layerFeature.geometry))
  else acc

/-- Lines 94-106: the neighbouring ids and the box of the affected area of a
gap part. -/
def neighborScan (ctx : Context Geom) (featureIds : LayerIdMap) (gapGeom : Geom) :
    LayerIdMap × QgsRectangle :=
  let gapAreaBBox := ctx.boundingBox gapGeom
  (ctx.layerFeaturesInBBox featureIds.keys gapAreaBBox).foldl (neighborStep ctx gapGeom)
    ([], gapAreaBBox)

/-- Lines 88-92: the area test of the loop, true when the part is skipped. -/
def areaSkipped (ctx : Context Geom) (gapGeom : Geom) : Bool :=
  decide (ctx.area gapGeom > ctx.thresholdMapUnits) ||
    decide (ctx.area gapGeom < ctx.reducedTolerance)

/-- Lines 81-115: the body of the part loop once `envelope` is known to be
non-null: `none` for `continue`, otherwise the error that is appended. -/
def gapPartError (ctx : Context Geom) (featureIds : LayerIdMap) (envelope diffGeom : Geom)
    (iPart : Nat) : Option (QgsGeometryGapCheckError Geom) :=
  let gapGeom := ctx.getGeomPart diffGeom iPart
  if ctx.boundingBox gapGeom = ctx.boundingBox envelope then none
  else if areaSkipped ctx gapGeom then none
  else
    let scan := neighborScan ctx featureIds gapGeom
    if scan.1.isEmpty then none
    else
      let area := ctx.area gapGeom
      some { geometry := gapGeom, neighbors := scan.1, area := area,
             affectedAreaBBox := scan.2 }

/-- Lines 79-117: the part loop.  `envelope` is the unchecked result of the
buffer call; the loop body dereferences it. -/
def gapLoop (ctx : Context Geom) (featureIds : LayerIdMap) (envelope : Option Geom)
    (diffGeom : Geom) :
    List Nat → List (QgsGeometryGapCheckError Geom) →
      Option (List (QgsGeometryGapCheckError Geom))
  | [], errors => some errors
  | iPart :: rest, errors =>
    match envelope with
    | none => none
    | some env =>
      match gapPartError ctx featureIds env diffGeom iPart with
      | none => gapLoop ctx featureIds envelope diffGeom rest errors
      | some e => gapLoop ctx featureIds envelope diffGeom rest (errors ++ [e])

/-- Line 31: the feature ids the pass works on. -/
def usedFeatureIds (ctx : Context Geom) (ids : LayerIdMap) : LayerIdMap :=
  if ids.isEmpty then ctx.allLayerFeatureIds else ids

/-- Lines 32-36: the geometries collected from the requested features. -/
def collectedGeoms (ctx : Context Geom) (ids : LayerIdMap) : List Geom :=
  (ctx.layerFeatures (usedFeatureIds ctx ids)).map (fun lf => lf.geometry)

/-- Line 47: the union of the collected geometries; `errMsg` starts empty. -/
def combineStage (ctx : Context Geom) (ids : LayerIdMap) : Option Geom × String :=
  ctx.combine ctx.tolerance (collectedGeoms ctx ids) ""

/-- Line 57: the envelope of the union. -/
def envelopeStage (ctx : Context Geom) (ids : LayerIdMap) (unionGeom : Geom) :
    Option Geom × String :=
  ctx.envelope ctx.tolerance unionGeom (combineStage ctx ids).2

/-- Line 66: the buffered envelope; the call is given no `errMsg`. -/
def bufferStage (ctx : Context Geom) (envelope : Geom) : Option Geom :=
  ctx.buffer ctx.tolerance envelope 2 0 GEOSBUF_CAP_SQUARE GEOSBUF_JOIN_MITRE 4

/-- Line 71: the difference of the buffered envelope and the union; the engine
is created on the unchecked result of the buffer call. -/
def differenceStage (ctx : Context Geom) (ids : LayerIdMap) (unionGeom : Geom)
    (bufEnvelope : Option Geom) : Option Geom × String :=
  ctx.difference ctx.tolerance bufEnvelope unionGeom (envelopeStage ctx ids unionGeom).2

/-- The function `QgsGeometryGapCheck::collectErrors`: the error list and the
message list after the call, or `none` when the run dereferences null. -/
def collectErrors (ctx : Context Geom) (errors : List (QgsGeometryGapCheckError Geom))
    (messages : List String) (ids : LayerIdMap) :
    Option (List (QgsGeometryGapCheckError Geom) × List String) :=
  let featureIds := usedFeatureIds ctx ids
  let geomList := collectedGeoms ctx ids
  if geomList.isEmpty then some (errors, messages)
  else
    match (combineStage ctx ids).1 with
    | none => some (errors, messages ++ ["Gap check: " ++ (combineStage ctx ids).2])
    | some unionGeom =>
      match (envelopeStage ctx ids unionGeom).1 with
      | none => some (errors, messages ++ ["Gap check: " ++ (envelopeStage ctx ids unionGeom).2])
      | some envelope =>
        let bufEnvelope := bufferStage ctx envelope
        match (differenceStage ctx ids unionGeom bufEnvelope).1 with
        | none =>
          some (errors,
            messages ++ ["Gap check: " ++ (differenceStage ctx ids unionGeom bufEnvelope).2])
        | some diffGeom =>
          match gapLoop ctx featureIds bufEnvelope diffGeom
              (List.range (ctx.partCount diffGeom)) errors with
          | none => none
          | some errors1 => some (errors1, messages)

/-! ## fixError and mergeWithNeighbor -/

/-- Lines 146-149: the running maximum and the merge target of the search.
`mergeFeature` is `none` while it is still the default-constructed feature. -/
structure MergeSearch (Geom : Type) where
  maxVal : ℚ
  mergeLayerId : String
  mergeFeature : Option (QgsFeature Geom)
  mergePartIdx : Int

/-- Lines 146-149: the initial values. -/
def MergeSearch.init : MergeSearch Geom :=
  { maxVal := 0, mergeLayerId := "", mergeFeature := none, mergePartIdx := -1 }

/-- Lines 174-181: one step of the part loop. -/
def partStep (ctx : Context Geom) (errLayerGeom : Geom) (layerId : String)
    (testFeature : QgsFeature Geom) (st : MergeSearch Geom) (iPart : Nat) : MergeSearch Geom :=
  let len := ctx.sharedEdgeLength errLayerGeom (ctx.getGeomPart testFeature.geometry iPart)
    ctx.reducedTolerance
  if len > st.maxVal then
    { maxVal := len, mergeFeature := some testFeature, mergePartIdx := iPart,
      mergeLayerId := layerId }
  else st

/-- Lines 165-183: one step of the feature loop; a feature that cannot be
fetched is passed over. -/
def featureStep (ctx : Context Geom) (errLayerGeom : Geom) (layerId : String)
    (st : MergeSearch Geom) (testId : Int) : MergeSearch Geom :=
  match ctx.getFeature layerId testId with
  | none => st
  | some testFeature =>
    (List.range (ctx.partCount testFeature.geometry)).foldl
      (partStep ctx errLayerGeom layerId testFeature) st

/-- Lines 157-183: one step of the layer loop. -/
def layerStep (ctx : Context Geom) (err : QgsGeometryGapCheckError Geom) (errGeometry : Geom)
    (st : MergeSearch Geom) (layerId : String) : MergeSearch Geom :=
  let errLayerGeom := ctx.reverseLayerTransform layerId errGeometry
  (err.neighbors.value layerId).foldl (featureStep ctx errLayerGeom layerId) st

/-- Lines 146-184: the search for the touching neighbour part. -/
def mergeSearch (ctx : Context Geom) (err : QgsGeometryGapCheckError Geom) : MergeSearch Geom :=
  let errGeometry := ctx.getGeomPart err.geometry 0
  err.neighbors.keys.foldl (layerStep ctx err errGeometry) MergeSearch.init

/-- The function `QgsGeometryGapCheck::mergeWithNeighbor`: the returned flag,
the changes and `errMsg` after the call. -/
def mergeWithNeighbor (ctx : Context Geom) (err : QgsGeometryGapCheckError Geom)
    (changes : Changes Geom) (errMsg : String) : Option (Bool × Changes Geom × String) :=
  let errGeometry := ctx.getGeomPart err.geometry 0
  let st := mergeSearch ctx err
  if st.maxVal = 0 then some (false, changes, errMsg)
  else
    match st.mergeFeature with
    | none => none
    | some mergeFeature =>
      let errLayerGeom := ctx.reverseLayerTransform st.mergeLayerId errGeometry
      let r := ctx.combineWith ctx.reducedTolerance errLayerGeom
        (ctx.getGeomPart mergeFeature.geometry st.mergePartIdx) errMsg
      match r.1 with
      | none => some (false, changes, r.2)
      | some combinedGeom =>
        if ctx.isEmpty combinedGeom || !ctx.isSingleType combinedGeom then
          some (false, changes, r.2)
        else
          some (true, replaceFeatureGeometryPart st.mergeLayerId mergeFeature st.mergePartIdx
            combinedGeom changes, r.2)

/-- Modelled from the spec: `setFixed` marks the error as fixed by `method`. -/
def QgsGeometryGapCheckError.setFixed (error : QgsGeometryGapCheckError Geom) (method : Int) :
    QgsGeometryGapCheckError Geom :=
  { error with status := Status.StatusFixed method }

/-- Modelled from the spec: `setFixFailed` marks the error as fix-failed with
the given message. -/
def QgsGeometryGapCheckError.setFixFailed (error : QgsGeometryGapCheckError Geom)
    (reason : String) : QgsGeometryGapCheckError Geom :=
  { error with status := Status.StatusFixFailed reason }

/-- The function `QgsGeometryGapCheck::fixError`: the error and the changes
after the call. -/
def fixError (ctx : Context Geom) (error : QgsGeometryGapCheckError Geom) (method : Int)
    (changes : Changes Geom) : Option (QgsGeometryGapCheckError Geom × Changes Geom) :=
  if method = NoChange then some (error.setFixed method, changes)
  else if method = MergeLongestEdge then
    match mergeWithNeighbor ctx error changes "" with
    | none => none
    | some (true, changes1, _) => some (error.setFixed method, changes1)
    | some (false, changes1, errMsg) =>
      some (error.setFixFailed ("Failed to merge with neighbor: " ++ errMsg), changes1)
  else some (error.setFixFailed "Unknown method", changes)

/-! ## The merge candidates, as the specification words them -/

/-- A merge candidate: a part of a fetchable neighbour feature, with its
shared-edge length against the gap shape transformed to the layer. -/
structure Candidate (Geom : Type) where
  layerId : String
  feature : QgsFeature Geom
  partIdx : Nat
  len : ℚ
deriving DecidableEq

/-- The candidates of one fetched feature, in part order. -/
def featureCandidates (ctx : Context Geom) (errLayerGeom : Geom) (layerId : String)
    (testId : Int) : List (Candidate Geom) :=
  match ctx.getFeature layerId testId with
  | none => []
  | some f =>
    (List.range (ctx.partCount f.geometry)).map fun (iPart : Nat) =>
      { layerId := layerId, feature := f, partIdx := iPart,
        len := ctx.sharedEdgeLength errLayerGeom (ctx.getGeomPart f.geometry iPart)
          ctx.reducedTolerance }

/-- The candidates of one neighbour layer, in feature order. -/
def layerCandidates (ctx : Context Geom) (err : QgsGeometryGapCheckError Geom)
    (layerId : String) : List (Candidate Geom) :=
  (err.neighbors.value layerId).flatMap
    (featureCandidates ctx (ctx.reverseLayerTransform layerId (ctx.getGeomPart err.geometry 0))
      layerId)

/-- All candidates in iteration order: layers, then feature ids within a
layer, then part indices within a feature. -/
def candidates (ctx : Context Geom) (err : QgsGeometryGapCheckError Geom) :
    List (Candidate Geom) :=
  err.neighbors.keys.flatMap (layerCandidates ctx err)

/-- The candidate `c` is the first one of `cs` that attains the maximal length. -/
def IsFirstLongest (cs : List (Candidate Geom)) (c : Candidate Geom) : Prop :=
  ∃ before after, cs = before ++ c :: after ∧
    (∀ d ∈ before, d.len < c.len) ∧ (∀ d ∈ after, d.len ≤ c.len)

/-- The search state right after candidate `c` became the target. -/
def MergeSearch.ofCandidate (c : Candidate Geom) : MergeSearch Geom :=
  { maxVal := c.len, mergeLayerId := c.layerId, mergeFeature := some c.feature,
    mergePartIdx := c.partIdx }

/-- The search step on a candidate: a strictly longer candidate replaces the
target. -/
def MergeSearch.take (st : MergeSearch Geom) (c : Candidate Geom) : MergeSearch Geom :=
  if c.len > st.maxVal then MergeSearch.ofCandidate c else st

/-- The union of the transformed gap shape with the part of candidate `c`, as
the engine returns it: the geometry pointer and `errMsg` afterwards. -/
def unionWithTarget (ctx : Context Geom) (err : QgsGeometryGapCheckError Geom)
    (c : Candidate Geom) (errMsg : String) : Option Geom × String :=
  ctx.combineWith ctx.reducedTolerance
    (ctx.reverseLayerTransform c.layerId (ctx.getGeomPart err.geometry 0))
    (ctx.getGeomPart c.feature.geometry c.partIdx) errMsg

/-- The union is null, empty, or not of a single-part type. -/
def IsDegenerate (ctx : Context Geom) (combinedGeom : Option Geom) : Prop :=
  match combinedGeom with
  | none => True
  | some g => ctx.isEmpty g = true ∨ ctx.isSingleType g = false

/-- The replacement issued for candidate `c` with the union `g`. -/
def instructionFor (c : Candidate Geom) (g : Geom) : MergeInstruction Geom :=
  { layerId := c.layerId, feature := c.feature, partIdx := c.partIdx, newPartGeom := g }

/-! ## The reported parts, as the specification words them -/

/-- A queried feature touches the part: its shared-edge length with the part at
the reduced tolerance is positive. -/
def Touches (ctx : Context Geom) (gapGeom : Geom) (lf : LayerFeature Geom) : Prop :=
  0 < ctx.sharedEdgeLength gapGeom lf.geometry ctx.reducedTolerance

instance (ctx : Context Geom) (gapGeom : Geom) (lf : LayerFeature Geom) :
    Decidable (Touches ctx gapGeom lf) := by
  unfold Touches; infer_instance

/-- The features returned by the bounding-box query for a part. -/
def queried (ctx : Context Geom) (featureIds : LayerIdMap) (gapGeom : Geom) :
    List (LayerFeature Geom) :=
  ctx.layerFeaturesInBBox featureIds.keys (ctx.boundingBox gapGeom)

/-- Steps 6a-6d: the part is not the outer band, its area lies in the closed
range, and at least one queried feature touches it. -/
def IsReportedPart (ctx : Context Geom) (featureIds : LayerIdMap) (bufEnvelope p : Geom) :
    Prop :=
  ctx.boundingBox p ≠ ctx.boundingBox bufEnvelope ∧
    (ctx.reducedTolerance ≤ ctx.area p ∧ ctx.area p ≤ ctx.thresholdMapUnits) ∧
    ∃ lf ∈ queried ctx featureIds p, Touches ctx p lf

instance (ctx : Context Geom) (featureIds : LayerIdMap) (bufEnvelope p : Geom) :
    Decidable (IsReportedPart ctx featureIds bufEnvelope p) := by
  unfold IsReportedPart; infer_instance

/-- Step 6e: the record emitted for a reported part. -/
def gapRecord (ctx : Context Geom) (featureIds : LayerIdMap) (p : Geom) :
    QgsGeometryGapCheckError Geom :=
  { geometry := p
    neighbors := (neighborScan ctx featureIds p).1
    area := ctx.area p
    affectedAreaBBox := (neighborScan ctx featureIds p).2 }

/-- The records of the reported parts of a difference, in part order. -/
def reportedRecords (ctx : Context Geom) (featureIds : LayerIdMap) (bufEnvelope diffGeom : Geom) :
    List (QgsGeometryGapCheckError Geom) :=
  ((List.range (ctx.partCount diffGeom)).filter fun (iPart : Nat) =>
      decide (IsReportedPart ctx featureIds bufEnvelope (ctx.getGeomPart diffGeom iPart))).map
    fun (iPart : Nat) => gapRecord ctx featureIds (ctx.getGeomPart diffGeom iPart)

/-- All engine stages of a detection pass succeed, with the named results. -/
def StagesSucceed (ctx : Context Geom) (ids : LayerIdMap)
    (unionGeom envelope bufEnvelope diffGeom : Geom) : Prop :=
  (collectedGeoms ctx ids).isEmpty = false ∧
    (combineStage ctx ids).1 = some unionGeom ∧
    (envelopeStage ctx ids unionGeom).1 = some envelope ∧
    bufferStage ctx envelope = some bufEnvelope ∧
    (differenceStage ctx ids unionGeom (some bufEnvelope)).1 = some diffGeom

/-! ## An exact engine on the unit grid

Geometries are finite sets of unit grid cells; the cell `(x, y)` is the unit
square with lower-left corner `(x, y)`.  On such geometries union, envelope,
buffer by a whole distance with mitred joins, difference, connected parts, area,
bounding box and shared-edge length are computed exactly. -/

namespace Grid

/-- A unit cell, named by its lower-left corner. -/
abbrev Cell := Int × Int

/-- A grid geometry: its cells, without repetition. -/
abbrev Cells := List Cell

/-- Two cells share an edge. -/
def adjacent (c d : Cell) : Bool :=
  (c.1 == d.1 && (c.2 == d.2 + 1 || d.2 == c.2 + 1)) ||
    (c.2 == d.2 && (c.1 == d.1 + 1 || d.1 == c.1 + 1))

/-- Breadth-first growth of a connected part: `frontier` holds the cells added
last, `comp` the part so far, `rest` the cells not reached yet. -/
def growPart : Nat → Cells → Cells → Cells → Cells × Cells
  | 0, _, comp, rest => (comp, rest)
  | fuel + 1, frontier, comp, rest =>
    let next := rest.filter fun c => frontier.any (adjacent c)
    if next.isEmpty then (comp, rest)
    else growPart fuel next (comp ++ next) (rest.filter fun c => !frontier.any (adjacent c))

/-- The edge-connected parts of a cell set, each started from its first cell. -/
def partsOf : Nat → Cells → List Cells
  | 0, _ => []
  | _ + 1, [] => []
  | fuel + 1, c :: cs =>
    let r := growPart cs.length [c] [c] cs
    r.1 :: partsOf fuel r.2

/-- The connected parts of a grid geometry. -/
def parts (g : Cells) : List Cells := partsOf g.length g

/-- Modelled from the spec: the bounding box of a grid geometry (the null box
for the empty geometry). -/
def boundingBox : Cells → QgsRectangle
  | [] => { xMinimum := 0, yMinimum := 0, xMaximum := 0, yMaximum := 0 }
  | c :: cs =>
    { xMinimum := ((cs.foldl (fun m d => min m d.1) c.1 : Int) : ℚ)
      yMinimum := ((cs.foldl (fun m d => min m d.2) c.2 : Int) : ℚ)
      xMaximum := ((cs.foldl (fun m d => max m d.1) c.1 + 1 : Int) : ℚ)
      yMaximum := ((cs.foldl (fun m d => max m d.2) c.2 + 1 : Int) : ℚ) }

/-- The cells of the rectangle `[x0, x0 + w) x [y0, y0 + h)`. -/
def rectCells (x0 y0 : Int) (w h : Nat) : Cells :=
  (List.range w).flatMap fun i => (List.range h).map fun j => (x0 + i, y0 + j)

/-- The union of two cell sets. -/
def union (a b : Cells) : Cells := a ++ b.filter fun c => !a.contains c

/-- The envelope: all cells of the bounding rectangle. -/
def envelope : Cells → Cells
  | [] => []
  | c :: cs =>
    let x0 := cs.foldl (fun m d => min m d.1) c.1
    let y0 := cs.foldl (fun m d => min m d.2) c.2
    let x1 := cs.foldl (fun m d => max m d.1) c.1
    let y1 := cs.foldl (fun m d => max m d.2) c.2
    rectCells x0 y0 (x1 - x0 + 1).toNat (y1 - y0 + 1).toNat

/-- The cell `c` lies within `d` cells of `e`, in both axes. -/
def within (d : Nat) (c e : Cell) : Bool :=
  decide ((c.1 - e.1).natAbs ≤ d) && decide ((c.2 - e.2).natAbs ≤ d)

/-- The buffer by `d` cells with mitred joins: every cell within `d` of the
geometry in both axes. -/
def dilate (d : Nat) : Cells → Cells
  | [] => []
  | c :: cs =>
    let x0 := cs.foldl (fun m e => min m e.1) c.1
    let y0 := cs.foldl (fun m e => min m e.2) c.2
    let x1 := cs.foldl (fun m e => max m e.1) c.1
    let y1 := cs.foldl (fun m e => max m e.2) c.2
    (rectCells (x0 - d) (y0 - d) ((x1 - x0 + 1).toNat + 2 * d) ((y1 - y0 + 1).toNat + 2 * d)).filter
      fun e => (c :: cs).any (within d e)

/-- The number of unit edges that a cell of `a` shares with a cell of `b`. -/
def sharedEdges (a b : Cells) : Nat :=
  (a.map fun c => (b.filter (adjacent c)).length).sum

/-- Two boxes intersect (touching counts). -/
def intersects (r s : QgsRectangle) : Bool :=
  decide (r.xMinimum ≤ s.xMaximum) && decide (s.xMinimum ≤ r.xMaximum) &&
    decide (r.yMinimum ≤ s.yMaximum) && decide (s.yMinimum ≤ r.yMaximum)

/-- Part `i` of a geometry; a geometry with at most one part is its own part. -/
def getGeomPart (g : Cells) (i : Int) : Cells :=
  match parts g with
  | [] => g
  | [_] => g
  | ps => ps.getD i.toNat []

/-- Modelled from the spec: the exact engine, with the feature pools given by a
feature table; all layers share the analysis coordinate system.  A buffer
distance that is not a whole number of cells is refused. -/
def context (features : List (LayerFeature Cells)) (tolerance reducedTolerance
    thresholdMapUnits : ℚ) : Context Cells :=
  { tolerance := tolerance
    reducedTolerance := reducedTolerance
    thresholdMapUnits := thresholdMapUnits
    allLayerFeatureIds :=
      features.foldl (fun m lf => m.insertId lf.layerId lf.featureId) []
    layerFeatures := fun ids =>
      features.filter fun lf => (ids.value lf.layerId).contains lf.featureId
    layerFeaturesInBBox := fun layerIds box =>
      features.filter fun lf => layerIds.contains lf.layerId &&
        intersects (boundingBox lf.geometry) box
    getFeature := fun layerId fid =>
      (features.find? fun lf => lf.layerId == layerId && lf.featureId == fid).map
        fun lf => { id := lf.featureId, geometry := lf.geometry }
    reverseLayerTransform := fun _ g => g
    boundingBox := boundingBox
    area := fun g => (g.length : ℚ)
    partCount := fun g => (parts g).length
    getGeomPart := getGeomPart
    isEmpty := fun g => g.isEmpty
    isSingleType := fun g => decide ((parts g).length ≤ 1)
    sharedEdgeLength := fun a b _ => (sharedEdges a b : ℚ)
    combine := fun _ gs msg => (some (gs.foldl union []), msg)
    envelope := fun _ g msg => (some (envelope g), msg)
    buffer := fun _ g distance _ _ _ _ =>
      if distance.den = 1 ∧ 0 ≤ distance.num then some (dilate distance.num.toNat g) else none
    difference := fun _ a b msg =>
      match a with
      | none => (none, msg)
      | some a => (some (a.filter fun c => !b.contains c), msg)
    combineWith := fun _ a b msg => (some (union a b), msg) }

/-- The three unit squares with lower-left corners (0,0), (1,0) and (0,1). -/
def threeSquares : List (LayerFeature Cells) :=
  [{ layerId := "polygons", featureId := 1, geometry := [(0, 0)] },
   { layerId := "polygons", featureId := 2, geometry := [(1, 0)] },
   { layerId := "polygons", featureId := 3, geometry := [(0, 1)] }]

/-- Eight unit squares around the missing square (1,1). -/
def ringSquares : List (LayerFeature Cells) :=
  [{ layerId := "polygons", featureId := 1, geometry := [(0, 0)] },
   { layerId := "polygons", featureId := 2, geometry := [(1, 0)] },
   { layerId := "polygons", featureId := 3, geometry := [(2, 0)] },
   { layerId := "polygons", featureId := 4, geometry := [(0, 1)] },
   { layerId := "polygons", featureId := 5, geometry := [(2, 1)] },
   { layerId := "polygons", featureId := 6, geometry := [(0, 2)] },
   { layerId := "polygons", featureId := 7, geometry := [(1, 2)] },
   { layerId := "polygons", featureId := 8, geometry := [(2, 2)] }]

/-- Detection over the ring of eight squares: tolerance 1/10, reduced tolerance
1/100 and area threshold 10. -/
def ringContext : Context Cells := context ringSquares (mkRat 1 10) (mkRat 1 100) 10

/-- Detection over the ring with both area bounds equal to 1, the area of the
missing square. -/
def boundaryContext : Context Cells := context ringSquares (mkRat 1 10) 1 1

/-- Detection over the ring with the area threshold 0 below the reduced
tolerance 1: the range of admitted areas is empty. -/
def emptyRangeContext : Context Cells := context ringSquares (mkRat 1 10) 1 0

/-- The gap of the ring: the square (1,1), touched by the four squares that
share an edge with it. -/
def ringGap : QgsGeometryGapCheckError Cells :=
  { geometry := [(1, 1)]
    neighbors := [("polygons", [2, 4, 5, 7])]
    area := 1
    affectedAreaBBox := { xMinimum := 0, yMinimum := 0, xMaximum := 3, yMaximum := 3 } }

/-- The feature ids of the three squares. -/
def threeSquaresIds : LayerIdMap := [("polygons", [1, 2, 3])]

/-- The union of the three squares. -/
def threeUnion : Cells := (threeSquares.map fun lf => lf.geometry).foldl union []

/-- The envelope of the three squares: the 2 x 2 square. -/
def threeEnvelope : Cells := envelope threeUnion

/-- The buffered envelope of the three squares: the 6 x 6 square. -/
def threeBuffer : Cells := dilate 2 threeEnvelope

/-- The buffered envelope of the three squares minus their union. -/
def threeDifference : Cells := threeBuffer.filter fun c => !threeUnion.contains c

/-- The union of the ring. -/
def ringUnion : Cells := (ringSquares.map fun lf => lf.geometry).foldl union []

/-- The envelope of the ring: the 3 x 3 square. -/
def ringEnvelope : Cells := envelope ringUnion

/-- The buffered envelope of the ring: the 7 x 7 square. -/
def ringBuffer : Cells := dilate 2 ringEnvelope

/-- The buffered envelope of the ring minus its union: the outer band and the
enclosed square. -/
def ringDifference : Cells := ringBuffer.filter fun c => !ringUnion.contains c

/-- The ring context with an engine whose buffer call fails.  As in the grid
engine, the difference of a null operand is null and leaves `errMsg` as it was. -/
def bufferFailContext : Context Cells :=
  { ringContext with buffer := fun _ _ _ _ _ _ _ => none }

/-- The ring context with an engine whose buffer call fails and whose
difference treats a null operand as the empty geometry. -/
def bufferFailLenientContext : Context Cells :=
  { ringContext with
    buffer := fun _ _ _ _ _ _ _ => none
    difference := fun _ a b msg => (some ((a.getD []).filter fun c => !b.contains c), msg) }

/-- The ring context with an engine whose union with the merge target fails. -/
def unionFailContext : Context Cells :=
  { ringContext with combineWith := fun _ _ _ _ => (none, "union failed") }

/-- The gap of the ring with a neighbour map that names the corner square 1,
which shares no edge with the gap, and a feature 99 that no pool holds. -/
def looseGap : QgsGeometryGapCheckError Cells :=
  { ringGap with neighbors := [("polygons", [1, 99])] }

end Grid

/-! ## Auxiliary facts about the containers -/

theorem insert_ne_nil (s : QgsFeatureIds) (fid : Int) : QgsFeatureIds.insert s fid ≠ [] := by
  unfold QgsFeatureIds.insert
  split
  · intro h
    subst h
    simp at *
  · simp

theorem mem_insert (s : QgsFeatureIds) (fid x : Int) (h : x ∈ QgsFeatureIds.insert s fid) :
    x ∈ s ∨ x = fid := by
  unfold QgsFeatureIds.insert at h
  split at h
  · exact Or.inl h
  · simpa using h

theorem insertId_ne_nil (m : LayerIdMap) (layerId : String) (fid : Int) :
    m.insertId layerId fid ≠ [] := by
  cases m with
  | nil => simp [LayerIdMap.insertId]
  | cons kv rest =>
    obtain ⟨k, s⟩ := kv
    simp only [LayerIdMap.insertId]
    split
    · simp
    · split <;> simp

/-- Inserting an id keeps an invariant of the entries that holds for the new pair. -/
theorem insertId_entries (P : String → Int → Prop) (m : LayerIdMap) (layerId : String)
    (fid : Int) (hm : ∀ kv ∈ m, kv.2 ≠ [] ∧ ∀ x ∈ kv.2, P kv.1 x) (hP : P layerId fid) :
    ∀ kv ∈ m.insertId layerId fid, kv.2 ≠ [] ∧ ∀ x ∈ kv.2, P kv.1 x := by
  induction m with
  | nil =>
    intro kv hkv
    simp only [LayerIdMap.insertId, List.mem_singleton] at hkv
    subst hkv
    refine ⟨insert_ne_nil [] fid, ?_⟩
    intro x hx
    rcases mem_insert [] fid x hx with h | h
    · simp at h
    · subst h; exact hP
  | cons head rest ih =>
    obtain ⟨k, s⟩ := head
    have hrest : ∀ kv ∈ rest, kv.2 ≠ [] ∧ ∀ x ∈ kv.2, P kv.1 x :=
      fun kv hkv => hm kv (List.mem_cons_of_mem _ hkv)
    have hhead := hm (k, s) (List.mem_cons_self _ _)
    have hnew : (QgsFeatureIds.insert [] fid) ≠ [] ∧
        ∀ x ∈ QgsFeatureIds.insert [] fid, P layerId x := by
      refine ⟨insert_ne_nil [] fid, ?_⟩
      intro x hx
      rcases mem_insert [] fid x hx with h | h
      · simp at h
      · subst h; exact hP
    intro kv hkv
    simp only [LayerIdMap.insertId] at hkv
    split at hkv
    · rename_i hk
      rcases List.mem_cons.1 hkv with h | h
      · subst h
        refine ⟨insert_ne_nil s fid, ?_⟩
        intro x hx
        rcases mem_insert s fid x hx with h | h
        · exact hhead.2 x h
        · subst h; subst hk; exact hP
      · exact hrest kv h
    · split at hkv
      · rcases List.mem_cons.1 hkv with h | h
        · subst h; exact hnew
        · exact hm kv h
      · rcases List.mem_cons.1 hkv with h | h
        · subst h; exact hhead
        · exact ih hrest kv h

/-! ## Auxiliary facts about boxes -/

theorem containsRect_refl (r : QgsRectangle) : r.containsRect r :=
  ⟨le_refl _, le_refl _, le_refl _, le_refl _⟩

theorem containsRect_trans {r s t : QgsRectangle} (h1 : r.containsRect s)
    (h2 : s.containsRect t) : r.containsRect t :=
  ⟨le_trans h1.1 h2.1, le_trans h1.2.1 h2.2.1, le_trans h2.2.2.1 h1.2.2.1,
    le_trans h2.2.2.2 h1.2.2.2⟩

theorem combineExtentWith_left (r s : QgsRectangle) : (r.combineExtentWith s).containsRect r :=
  ⟨min_le_left _ _, min_le_left _ _, le_max_left _ _, le_max_left _ _⟩

theorem combineExtentWith_right (r s : QgsRectangle) : (r.combineExtentWith s).containsRect s :=
  ⟨min_le_right _ _, min_le_right _ _, le_max_right _ _, le_max_right _ _⟩

/-- A box extended by a list of boxes contains the box and every box of the list. -/
theorem foldl_combine_contains (bs : List QgsRectangle) (b : QgsRectangle) :
    (bs.foldl QgsRectangle.combineExtentWith b).containsRect b ∧
      ∀ x ∈ bs, (bs.foldl QgsRectangle.combineExtentWith b).containsRect x := by
  induction bs generalizing b with
  | nil => exact ⟨containsRect_refl b, by simp⟩
  | cons c rest ih =>
    simp only [List.foldl_cons]
    obtain ⟨h1, h2⟩ := ih (b.combineExtentWith c)
    refine ⟨containsRect_trans h1 (combineExtentWith_left b c), ?_⟩
    intro x hx
    rcases List.mem_cons.1 hx with h | h
    · subst h
      exact containsRect_trans h1 (combineExtentWith_right b x)
    · exact h2 x h

/-! ## Auxiliary facts about the neighbour loop -/

theorem foldl_neighborStep_entries (ctx : Context Geom) (gapGeom : Geom)
    (P : String → Int → Prop) (L : List (LayerFeature Geom)) (acc : LayerIdMap × QgsRectangle)
    (hacc : ∀ kv ∈ acc.1, kv.2 ≠ [] ∧ ∀ x ∈ kv.2, P kv.1 x)
    (hL : ∀ lf ∈ L, Touches ctx gapGeom lf → P lf.layerId lf.featureId) :
    ∀ kv ∈ (L.foldl (neighborStep ctx gapGeom) acc).1, kv.2 ≠ [] ∧ ∀ x ∈ kv.2, P kv.1 x := by
  induction L generalizing acc with
  | nil => simpa using hacc
  | cons lf rest ih =>
    simp only [List.foldl_cons]
    apply ih
    · unfold neighborStep
      split
      · rename_i hpos
        exact insertId_entries P acc.1 lf.layerId lf.featureId hacc
          (hL lf (List.mem_cons_self _ _) hpos)
      · exact hacc
    · intro lf1 h
      exact hL lf1 (List.mem_cons_of_mem _ h)

theorem foldl_neighborStep_nil (ctx : Context Geom) (gapGeom : Geom)
    (L : List (LayerFeature Geom)) (acc : LayerIdMap × QgsRectangle) :
    (L.foldl (neighborStep ctx gapGeom) acc).1 = [] ↔
      acc.1 = [] ∧ ∀ lf ∈ L, ¬ Touches ctx gapGeom lf := by
  induction L generalizing acc with
  | nil => simp
  | cons lf rest ih =>
    simp only [List.foldl_cons, ih, List.mem_cons, forall_eq_or_imp]
    by_cases ht : Touches ctx gapGeom lf
    · have hstep : neighborStep ctx gapGeom acc lf =
          (acc.1.insertId lf.layerId lf.featureId,
            acc.2.combineExtentWith (ctx.boundingBox lf.geometry)) := by
        unfold neighborStep
        exact if_pos ht
      rw [hstep]
      constructor
      · intro h
        exact absurd h.1 (insertId_ne_nil _ _ _)
      · intro h
        exact absurd ht h.2.1
    · have hstep : neighborStep ctx gapGeom acc lf = acc := by
        unfold neighborStep
        exact if_neg ht
      rw [hstep]
      constructor
      · intro h
        exact ⟨h.1, ht, h.2⟩
      · intro h
        exact ⟨h.1, h.2.2⟩

theorem foldl_neighborStep_box (ctx : Context Geom) (gapGeom : Geom)
    (L : List (LayerFeature Geom)) (acc : LayerIdMap × QgsRectangle) :
    (L.foldl (neighborStep ctx gapGeom) acc).2 =
      ((L.filter fun lf => decide (Touches ctx gapGeom lf)).map
        fun lf => ctx.boundingBox lf.geometry).foldl QgsRectangle.combineExtentWith acc.2 := by
  induction L generalizing acc with
  | nil => simp
  | cons lf rest ih =>
    simp only [List.foldl_cons, ih]
    by_cases ht : Touches ctx gapGeom lf
    · have hstep : neighborStep ctx gapGeom acc lf =
          (acc.1.insertId lf.layerId lf.featureId,
            acc.2.combineExtentWith (ctx.boundingBox lf.geometry)) := by
        unfold neighborStep
        exact if_pos ht
      rw [hstep]
      simp [List.filter_cons, ht]
    · have hstep : neighborStep ctx gapGeom acc lf = acc := by
        unfold neighborStep
        exact if_neg ht
      rw [hstep]
      simp [List.filter_cons, ht]

/-- The neighbour map of a part is empty exactly when no queried feature
touches the part. -/
theorem neighborScan_isEmpty (ctx : Context Geom) (featureIds : LayerIdMap) (p : Geom) :
    (neighborScan ctx featureIds p).1.isEmpty = true ↔
      ∀ lf ∈ queried ctx featureIds p, ¬ Touches ctx p lf := by
  unfold neighborScan queried
  simp only [List.isEmpty_iff]
  rw [foldl_neighborStep_nil]
  simp

/-- The area test passes exactly the closed range. -/
theorem areaSkipped_eq_false (ctx : Context Geom) (p : Geom) :
    areaSkipped ctx p = false ↔
      ctx.reducedTolerance ≤ ctx.area p ∧ ctx.area p ≤ ctx.thresholdMapUnits := by
  unfold areaSkipped
  simp only [Bool.or_eq_false_iff, decide_eq_false_iff_not, not_lt, gt_iff_lt]
  exact ⟨fun h => ⟨h.2, h.1⟩, fun h => ⟨h.2, h.1⟩⟩

/-- The loop body emits the record of a part exactly when the part is a
reported part. -/
theorem gapPartError_eq (ctx : Context Geom) (featureIds : LayerIdMap) (env diffGeom : Geom)
    (iPart : Nat) :
    gapPartError ctx featureIds env diffGeom iPart =
      if IsReportedPart ctx featureIds env (ctx.getGeomPart diffGeom iPart) then
        some (gapRecord ctx featureIds (ctx.getGeomPart diffGeom iPart))
      else none := by
  by_cases hrep : IsReportedPart ctx featureIds env (ctx.getGeomPart diffGeom iPart)
  · rw [if_pos hrep]
    obtain ⟨hbox, harea, lf, hlf, ht⟩ := hrep
    have hskip := (areaSkipped_eq_false ctx _).2 harea
    have hne : (neighborScan ctx featureIds (ctx.getGeomPart diffGeom iPart)).1.isEmpty
        = false := by
      rw [Bool.eq_false_iff]
      intro h
      exact (neighborScan_isEmpty ctx featureIds _).1 h lf hlf ht
    simp [gapPartError, hbox, hskip, hne, gapRecord]
  · rw [if_neg hrep]
    unfold gapPartError
    by_cases hbox : ctx.boundingBox (ctx.getGeomPart diffGeom iPart) = ctx.boundingBox env
    · simp [hbox]
    · by_cases hskip : areaSkipped ctx (ctx.getGeomPart diffGeom iPart) = true
      · simp [hbox, hskip]
      · by_cases hne :
          (neighborScan ctx featureIds (ctx.getGeomPart diffGeom iPart)).1.isEmpty = true
        · simp [hbox, hskip, hne]
        · exfalso
          apply hrep
          refine ⟨hbox, (areaSkipped_eq_false ctx _).1 (by simpa using hskip), ?_⟩
          by_contra hcon
          apply hne
          rw [neighborScan_isEmpty]
          intro lf hlf ht
          exact hcon ⟨lf, hlf, ht⟩

theorem filterMap_ite {α β : Type} (p : α → Prop) [DecidablePred p] (g : α → β)
    (l : List α) :
    l.filterMap (fun a => if p a then some (g a) else none) =
      (l.filter fun a => decide (p a)).map g := by
  induction l with
  | nil => rfl
  | cons a rest ih =>
    by_cases h : p a
    · simp [List.filterMap_cons, List.filter_cons, h, ih]
    · simp [List.filterMap_cons, List.filter_cons, h, ih]

/-- With a non-null envelope the part loop appends the records of the loop body. -/
theorem gapLoop_some (ctx : Context Geom) (featureIds : LayerIdMap) (env diffGeom : Geom)
    (l : List Nat) (errors : List (QgsGeometryGapCheckError Geom)) :
    gapLoop ctx featureIds (some env) diffGeom l errors =
      some (errors ++ l.filterMap (gapPartError ctx featureIds env diffGeom)) := by
  induction l generalizing errors with
  | nil => simp [gapLoop]
  | cons i rest ih =>
    simp only [gapLoop, List.filterMap_cons]
    cases h : gapPartError ctx featureIds env diffGeom i with
    | none => simp [ih]
    | some e => simp [ih]

/-- With a null envelope the part loop only completes when there is no part. -/
theorem gapLoop_none (ctx : Context Geom) (featureIds : LayerIdMap) (diffGeom : Geom)
    (l : List Nat) (errors errors1 : List (QgsGeometryGapCheckError Geom))
    (h : gapLoop ctx featureIds none diffGeom l errors = some errors1) : errors1 = errors := by
  cases l with
  | nil => simpa [gapLoop] using h.symm
  | cons i rest => simp [gapLoop] at h

/-- The part loop appends the records of the reported parts, in part order. -/
theorem gapLoop_reported (ctx : Context Geom) (featureIds : LayerIdMap) (env diffGeom : Geom)
    (errors : List (QgsGeometryGapCheckError Geom)) :
    gapLoop ctx featureIds (some env) diffGeom (List.range (ctx.partCount diffGeom)) errors =
      some (errors ++ reportedRecords ctx featureIds env diffGeom) := by
  rw [gapLoop_some]
  have hfun : gapPartError ctx featureIds env diffGeom = fun (iPart : Nat) =>
      if IsReportedPart ctx featureIds env (ctx.getGeomPart diffGeom iPart) then
        some (gapRecord ctx featureIds (ctx.getGeomPart diffGeom iPart))
      else none := by
    funext iPart
    exact gapPartError_eq ctx featureIds env diffGeom iPart
  rw [hfun, filterMap_ite
    (fun (iPart : Nat) => IsReportedPart ctx featureIds env (ctx.getGeomPart diffGeom iPart))
    (fun (iPart : Nat) => gapRecord ctx featureIds (ctx.getGeomPart diffGeom iPart))]
  rfl

/-! ## Auxiliary facts about collectErrors -/

/-- When every stage succeeds the pass appends exactly the reported records. -/
theorem collectErrors_of_stages (ctx : Context Geom)
    (errors : List (QgsGeometryGapCheckError Geom)) (messages : List String) (ids : LayerIdMap)
    (unionGeom envelope bufEnvelope diffGeom : Geom)
    (h : StagesSucceed ctx ids unionGeom envelope bufEnvelope diffGeom) :
    collectErrors ctx errors messages ids =
      some (errors ++ reportedRecords ctx (usedFeatureIds ctx ids) bufEnvelope diffGeom,
        messages) := by
  obtain ⟨hne, h1, h2, hb, h3⟩ := h
  unfold collectErrors
  simp only [hne, h1, h2, hb, h3, gapLoop_reported]
  simp

/-- Whatever a completed pass appends is the record of a reported part. -/
theorem collectErrors_appended (ctx : Context Geom)
    (errors errors1 : List (QgsGeometryGapCheckError Geom)) (messages messages1 : List String)
    (ids : LayerIdMap)
    (h : collectErrors ctx errors messages ids = some (errors1, messages1)) :
    ∃ new, errors1 = errors ++ new ∧ ∀ e ∈ new, ∃ bufEnvelope diffGeom, ∃ iPart : Nat,
      IsReportedPart ctx (usedFeatureIds ctx ids) bufEnvelope (ctx.getGeomPart diffGeom iPart) ∧
      e = gapRecord ctx (usedFeatureIds ctx ids) (ctx.getGeomPart diffGeom iPart) := by
  have hnil : ∀ l : List (QgsGeometryGapCheckError Geom), l = errors →
      ∃ new, l = errors ++ new ∧ ∀ e ∈ new, ∃ bufEnvelope diffGeom, ∃ iPart : Nat,
        IsReportedPart ctx (usedFeatureIds ctx ids) bufEnvelope
          (ctx.getGeomPart diffGeom iPart) ∧
        e = gapRecord ctx (usedFeatureIds ctx ids) (ctx.getGeomPart diffGeom iPart) := by
    intro l hl
    exact ⟨[], by simp [hl], by simp⟩
  unfold collectErrors at h
  simp only at h
  split at h
  · simp only [Option.some.injEq, Prod.mk.injEq] at h
    exact hnil _ h.1.symm
  · split at h
    · simp only [Option.some.injEq, Prod.mk.injEq] at h
      exact hnil _ h.1.symm
    · rename_i unionGeom hu
      split at h
      · simp only [Option.some.injEq, Prod.mk.injEq] at h
        exact hnil _ h.1.symm
      · rename_i envelope henv
        split at h
        · simp only [Option.some.injEq, Prod.mk.injEq] at h
          exact hnil _ h.1.symm
        · rename_i diffGeom hd
          split at h
          · simp at h
          · rename_i errors2 hloop
            simp only [Option.some.injEq, Prod.mk.injEq] at h
            obtain ⟨h1, -⟩ := h
            subst h1
            cases hb : bufferStage ctx envelope with
            | none =>
              rw [hb] at hloop
              exact hnil _ (gapLoop_none ctx _ _ _ _ _ hloop)
            | some bufEnvelope =>
              rw [hb, gapLoop_reported] at hloop
              simp only [Option.some.injEq] at hloop
              refine ⟨_, hloop.symm, ?_⟩
              intro e he
              unfold reportedRecords at he
              simp only [List.mem_map, List.mem_filter, decide_eq_true_eq] at he
              obtain ⟨iPart, ⟨-, hrep⟩, rfl⟩ := he
              exact ⟨bufEnvelope, diffGeom, iPart, hrep, rfl⟩

/-! ## Detection on the grid -/

set_option maxRecDepth 100000

/-- Detection over the ring of eight squares reports the enclosed square. -/
theorem ring_detection :
    collectErrors Grid.ringContext [] [] [] = some ([Grid.ringGap], []) := by
  decide

/-- Detection over the ring still reports the enclosed square when its area
equals both bounds. -/
theorem boundary_detection :
    collectErrors Grid.boundaryContext [] [] [] = some ([Grid.ringGap], []) := by
  decide

/-! ## Detection: the claims -/

/-- C1, as worded: a part whose area equals a bound is rejected by the area
test when the threshold lies below the reduced tolerance.  With threshold 0 and
reduced tolerance 1 the enclosed square of the ring, of area 1, sits on the
lower bound, is skipped, and the pass reports nothing. -/
theorem area_at_bound_rejected :
    Grid.emptyRangeContext.area [(1, 1)] = Grid.emptyRangeContext.reducedTolerance ∧
      areaSkipped Grid.emptyRangeContext [(1, 1)] = true ∧
      collectErrors Grid.emptyRangeContext [] [] [] = some ([], []) := by
  decide

/-- C1, amended: every gap record appended by `collectErrors` has an area
between `reducedTolerance` and `thresholdMapUnits`, both included; a difference
part whose area is below `reducedTolerance` or above `thresholdMapUnits`
produces no record; the area test passes exactly the closed range, and when
`reducedTolerance` is at most `thresholdMapUnits` a part whose area equals
either bound is not rejected. -/
theorem collectErrors_area_within_bounds (ctx : Context Geom)
    (errors errors1 : List (QgsGeometryGapCheckError Geom)) (messages messages1 : List String)
    (ids : LayerIdMap)
    (h : collectErrors ctx errors messages ids = some (errors1, messages1)) :
    (∃ new, errors1 = errors ++ new ∧ ∀ e ∈ new,
      ctx.reducedTolerance ≤ e.area ∧ e.area ≤ ctx.thresholdMapUnits ∧
        e.area = ctx.area e.geometry) ∧
    (∀ (featureIds : LayerIdMap) (envelope diffGeom : Geom) (iPart : Nat),
      (ctx.area (ctx.getGeomPart diffGeom iPart) < ctx.reducedTolerance ∨
        ctx.thresholdMapUnits < ctx.area (ctx.getGeomPart diffGeom iPart)) →
      gapPartError ctx featureIds envelope diffGeom iPart = none) ∧
    (∀ p : Geom, areaSkipped ctx p = false ↔
      ctx.reducedTolerance ≤ ctx.area p ∧ ctx.area p ≤ ctx.thresholdMapUnits) ∧
    (∀ p : Geom, ctx.reducedTolerance ≤ ctx.thresholdMapUnits →
      (ctx.area p = ctx.reducedTolerance ∨ ctx.area p = ctx.thresholdMapUnits) →
      areaSkipped ctx p = false) := by
  refine ⟨?_, ?_, areaSkipped_eq_false ctx, ?_⟩
  · obtain ⟨new, hnew, hall⟩ := collectErrors_appended ctx errors errors1 messages messages1 ids h
    refine ⟨new, hnew, ?_⟩
    intro e he
    obtain ⟨bufEnvelope, diffGeom, iPart, hrep, rfl⟩ := hall e he
    exact ⟨hrep.2.1.1, hrep.2.1.2, rfl⟩
  · intro featureIds envelope diffGeom iPart hout
    rw [gapPartError_eq, if_neg]
    intro hrep
    rcases hout with hlt | hgt
    · exact absurd hrep.2.1.1 (not_le.2 hlt)
    · exact absurd hrep.2.1.2 (not_le.2 hgt)
  · intro p hle hp
    rw [areaSkipped_eq_false]
    rcases hp with hp | hp
    · rw [hp]
      exact ⟨le_refl _, hle⟩
    · rw [hp]
      exact ⟨hle, le_refl _⟩

/-- Witness of C1: over the ring with both bounds equal to 1, the reported gap
has area 1, and the square of area 1, which sits on both bounds, passes the
area test. -/
theorem collectErrors_area_within_bounds_witness :
    collectErrors Grid.boundaryContext [] [] [] = some ([Grid.ringGap], []) ∧
      (∃ new, [Grid.ringGap] = [] ++ new ∧ ∀ e ∈ new,
        (1 : ℚ) ≤ e.area ∧ e.area ≤ 1 ∧ e.area = Grid.boundaryContext.area e.geometry) ∧
      areaSkipped Grid.boundaryContext [(1, 1)] = false :=
  ⟨boundary_detection,
    (collectErrors_area_within_bounds Grid.boundaryContext [] [Grid.ringGap] [] [] []
      boundary_detection).1,
    (collectErrors_area_within_bounds Grid.boundaryContext [] [Grid.ringGap] [] [] []
      boundary_detection).2.2.2 [(1, 1)] (by decide) (Or.inl (by decide))⟩

/-- C2: every gap record appended by `collectErrors` has a non-empty neighbour
map whose layer keys map to non-empty sets, and every listed (layer, feature) is
a feature returned by the bounding-box query for the gap part whose shared-edge
length with the gap geometry at the reduced tolerance is positive; a part that
no queried feature touches produces no record. -/
theorem collectErrors_neighbors_touch (ctx : Context Geom)
    (errors errors1 : List (QgsGeometryGapCheckError Geom)) (messages messages1 : List String)
    (ids : LayerIdMap)
    (h : collectErrors ctx errors messages ids = some (errors1, messages1)) :
    (∃ new, errors1 = errors ++ new ∧ ∀ e ∈ new,
      e.neighbors ≠ [] ∧ ∀ kv ∈ e.neighbors, kv.2 ≠ [] ∧ ∀ fid ∈ kv.2,
        ∃ lf ∈ queried ctx (usedFeatureIds ctx ids) e.geometry,
          lf.layerId = kv.1 ∧ lf.featureId = fid ∧
            0 < ctx.sharedEdgeLength e.geometry lf.geometry ctx.reducedTolerance) ∧
    (∀ (featureIds : LayerIdMap) (envelope diffGeom : Geom) (iPart : Nat),
      (∀ lf ∈ queried ctx featureIds (ctx.getGeomPart diffGeom iPart),
        ¬ 0 < ctx.sharedEdgeLength (ctx.getGeomPart diffGeom iPart) lf.geometry
          ctx.reducedTolerance) →
      gapPartError ctx featureIds envelope diffGeom iPart = none) := by
  constructor
  · obtain ⟨new, hnew, hall⟩ := collectErrors_appended ctx errors errors1 messages messages1 ids h
    refine ⟨new, hnew, ?_⟩
    intro e he
    obtain ⟨bufEnvelope, diffGeom, iPart, hrep, rfl⟩ := hall e he
    obtain ⟨-, -, lf0, hlf0, ht0⟩ := hrep
    constructor
    · intro hnil
      have hemp : (neighborScan ctx (usedFeatureIds ctx ids)
          (ctx.getGeomPart diffGeom iPart)).1.isEmpty = true := by
        rw [List.isEmpty_iff]
        exact hnil
      exact (neighborScan_isEmpty ctx _ _).1 hemp lf0 hlf0 ht0
    · exact foldl_neighborStep_entries ctx (ctx.getGeomPart diffGeom iPart)
        (fun k fid => ∃ lf ∈ queried ctx (usedFeatureIds ctx ids)
          (ctx.getGeomPart diffGeom iPart), lf.layerId = k ∧ lf.featureId = fid ∧
            0 < ctx.sharedEdgeLength (ctx.getGeomPart diffGeom iPart) lf.geometry
              ctx.reducedTolerance)
        _ _ (by simp) (fun lf hlf ht => ⟨lf, hlf, rfl, rfl, ht⟩)
  · intro featureIds envelope diffGeom iPart hnone
    rw [gapPartError_eq, if_neg]
    intro hrep
    obtain ⟨-, -, lf, hlf, ht⟩ := hrep
    exact hnone lf hlf ht

/-- Witness of C2: the gap of the ring lists the four squares that share an
edge with it. -/
theorem collectErrors_neighbors_touch_witness :
    collectErrors Grid.ringContext [] [] [] = some ([Grid.ringGap], []) ∧
      ∃ new, [Grid.ringGap] = [] ++ new ∧ ∀ e ∈ new,
        e.neighbors ≠ [] ∧ ∀ kv ∈ e.neighbors, kv.2 ≠ [] ∧ ∀ fid ∈ kv.2,
          ∃ lf ∈ queried Grid.ringContext (usedFeatureIds Grid.ringContext []) e.geometry,
            lf.layerId = kv.1 ∧ lf.featureId = fid ∧
              0 < Grid.ringContext.sharedEdgeLength e.geometry lf.geometry
                Grid.ringContext.reducedTolerance :=
  ⟨ring_detection,
    (collectErrors_neighbors_touch Grid.ringContext [] [Grid.ringGap] [] [] []
      ring_detection).1⟩

/-- Stages of the detection over the three squares, for any thresholds. -/
theorem three_squares_stages (tol red thr : ℚ) :
    StagesSucceed (Grid.context Grid.threeSquares tol red thr) Grid.threeSquaresIds
      Grid.threeUnion Grid.threeEnvelope Grid.threeBuffer Grid.threeDifference :=
  ⟨rfl, rfl, rfl, rfl, rfl⟩

/-- The difference of the three-squares scenario is connected. -/
theorem three_squares_parts : (Grid.parts Grid.threeDifference).length = 1 := by
  decide

/-- The only part of the three-squares difference is the difference itself. -/
theorem three_squares_part0 :
    Grid.getGeomPart Grid.threeDifference 0 = Grid.threeDifference := by
  decide

/-- The three-squares difference spans the whole buffered envelope. -/
theorem three_squares_box :
    Grid.boundingBox Grid.threeDifference = Grid.boundingBox Grid.threeBuffer := by
  decide

/-- The missing square (1,1) of the three-squares scenario shares an edge with
the cell (2,1) of the band around the envelope; both lie in the difference. -/
theorem three_squares_notch_joins_band :
    ((1, 1) : Grid.Cell) ∈ Grid.threeDifference ∧ ((2, 1) : Grid.Cell) ∈ Grid.threeDifference ∧
      ((2, 1) : Grid.Cell) ∉ Grid.threeEnvelope ∧ Grid.adjacent (1, 1) (2, 1) = true := by
  decide

/-- Detection over the three squares reports nothing, whatever the thresholds. -/
theorem three_squares_detection (tol red thr : ℚ) :
    collectErrors (Grid.context Grid.threeSquares tol red thr) [] [] Grid.threeSquaresIds =
      some ([], []) := by
  rw [collectErrors_of_stages _ _ _ _ _ _ _ _ (three_squares_stages tol red thr)]
  have hrec : reportedRecords (Grid.context Grid.threeSquares tol red thr)
      (usedFeatureIds (Grid.context Grid.threeSquares tol red thr) Grid.threeSquaresIds)
      Grid.threeBuffer Grid.threeDifference = [] := by
    unfold reportedRecords
    have hcount : (Grid.context Grid.threeSquares tol red thr).partCount Grid.threeDifference
        = 1 := three_squares_parts
    have hno : ¬ IsReportedPart (Grid.context Grid.threeSquares tol red thr)
        (usedFeatureIds (Grid.context Grid.threeSquares tol red thr) Grid.threeSquaresIds)
        Grid.threeBuffer
        ((Grid.context Grid.threeSquares tol red thr).getGeomPart Grid.threeDifference 0) := by
      intro h
      apply h.1
      show Grid.boundingBox (Grid.getGeomPart Grid.threeDifference 0) = _
      rw [three_squares_part0]
      exact three_squares_box
    rw [hcount]
    simp [List.range_succ, hno]
  rw [hrec]
  rfl

/-- Stages of the detection over the ring. -/
theorem ring_stages :
    StagesSucceed Grid.ringContext [] Grid.ringUnion Grid.ringEnvelope Grid.ringBuffer
      Grid.ringDifference :=
  ⟨rfl, rfl, rfl, rfl, rfl⟩

/-- C3: the box of every gap record appended by `collectErrors` is the box of
the gap geometry extended by `combineExtentWith` with the box of each queried
feature that touches it, and with no other box; it contains the box of the gap
geometry and the box of every feature recorded in the neighbour map. -/
theorem collectErrors_box_contains (ctx : Context Geom)
    (errors errors1 : List (QgsGeometryGapCheckError Geom)) (messages messages1 : List String)
    (ids : LayerIdMap)
    (h : collectErrors ctx errors messages ids = some (errors1, messages1)) :
    ∃ new, errors1 = errors ++ new ∧ ∀ e ∈ new,
      e.affectedAreaBBox =
        (((queried ctx (usedFeatureIds ctx ids) e.geometry).filter
            fun lf => decide (Touches ctx e.geometry lf)).map
          fun lf => ctx.boundingBox lf.geometry).foldl
          QgsRectangle.combineExtentWith (ctx.boundingBox e.geometry) ∧
      e.affectedAreaBBox.containsRect (ctx.boundingBox e.geometry) ∧
      (∀ lf ∈ queried ctx (usedFeatureIds ctx ids) e.geometry, Touches ctx e.geometry lf →
        e.affectedAreaBBox.containsRect (ctx.boundingBox lf.geometry)) ∧
      (∀ kv ∈ e.neighbors, ∀ fid ∈ kv.2,
        ∃ lf ∈ queried ctx (usedFeatureIds ctx ids) e.geometry,
          lf.layerId = kv.1 ∧ lf.featureId = fid ∧
            e.affectedAreaBBox.containsRect (ctx.boundingBox lf.geometry)) := by
  obtain ⟨new, hnew, hall⟩ := collectErrors_appended ctx errors errors1 messages messages1 ids h
  refine ⟨new, hnew, ?_⟩
  intro e he
  obtain ⟨bufEnvelope, diffGeom, iPart, hrep, rfl⟩ := hall e he
  have hbox : (gapRecord ctx (usedFeatureIds ctx ids)
      (ctx.getGeomPart diffGeom iPart)).affectedAreaBBox =
      (((queried ctx (usedFeatureIds ctx ids) (ctx.getGeomPart diffGeom iPart)).filter
          fun lf => decide (Touches ctx (ctx.getGeomPart diffGeom iPart) lf)).map
        fun lf => ctx.boundingBox lf.geometry).foldl
        QgsRectangle.combineExtentWith (ctx.boundingBox (ctx.getGeomPart diffGeom iPart)) := by
    show (neighborScan ctx (usedFeatureIds ctx ids) (ctx.getGeomPart diffGeom iPart)).2 = _
    unfold neighborScan queried
    exact foldl_neighborStep_box ctx _ _ _
  have hcont := foldl_combine_contains
    (((queried ctx (usedFeatureIds ctx ids) (ctx.getGeomPart diffGeom iPart)).filter
        fun lf => decide (Touches ctx (ctx.getGeomPart diffGeom iPart) lf)).map
      fun lf => ctx.boundingBox lf.geometry)
    (ctx.boundingBox (ctx.getGeomPart diffGeom iPart))
  rw [← hbox] at hcont
  have htouch : ∀ lf ∈ queried ctx (usedFeatureIds ctx ids) (ctx.getGeomPart diffGeom iPart),
      Touches ctx (ctx.getGeomPart diffGeom iPart) lf →
      (gapRecord ctx (usedFeatureIds ctx ids)
        (ctx.getGeomPart diffGeom iPart)).affectedAreaBBox.containsRect
        (ctx.boundingBox lf.geometry) := by
    intro lf hlf ht
    apply hcont.2
    simp only [List.mem_map, List.mem_filter, decide_eq_true_eq]
    exact ⟨lf, ⟨hlf, ht⟩, rfl⟩
  refine ⟨hbox, hcont.1, htouch, ?_⟩
  have hent := foldl_neighborStep_entries ctx (ctx.getGeomPart diffGeom iPart)
    (fun k fid => ∃ lf ∈ queried ctx (usedFeatureIds ctx ids)
      (ctx.getGeomPart diffGeom iPart), lf.layerId = k ∧ lf.featureId = fid ∧
        (gapRecord ctx (usedFeatureIds ctx ids)
          (ctx.getGeomPart diffGeom iPart)).affectedAreaBBox.containsRect
          (ctx.boundingBox lf.geometry))
    (queried ctx (usedFeatureIds ctx ids) (ctx.getGeomPart diffGeom iPart))
    ([], ctx.boundingBox (ctx.getGeomPart diffGeom iPart)) (by simp)
    (fun lf hlf ht => ⟨lf, hlf, rfl, rfl, htouch lf hlf ht⟩)
  intro kv hkv fid hfid
  exact (hent kv hkv).2 fid hfid

/-- Witness of C3: the box of the gap of the ring contains the box of the gap
square. -/
theorem collectErrors_box_contains_witness :
    collectErrors Grid.ringContext [] [] [] = some ([Grid.ringGap], []) ∧
      ∃ new, [Grid.ringGap] = [] ++ new ∧ ∀ e ∈ new,
        e.affectedAreaBBox.containsRect (Grid.ringContext.boundingBox e.geometry) :=
  ⟨ring_detection,
    (collectErrors_box_contains Grid.ringContext [] [Grid.ringGap] [] [] []
      ring_detection).imp fun _ hnew => ⟨hnew.1, fun e he => (hnew.2 e he).2.1⟩⟩

/-- C10: when all engine stages succeed, `collectErrors` appends exactly the
records of the reported parts of the difference, one per part and in part
order: the parts whose box differs from the box of the buffered envelope, whose
area lies between `reducedTolerance` and `thresholdMapUnits`, and which at least
one queried feature touches; each record carries the geometry and the area of
its part.  A part whose box equals the box of the buffered envelope is never
reported, and a difference made only of such parts yields no record. -/
theorem collectErrors_reports_exactly (ctx : Context Geom)
    (errors : List (QgsGeometryGapCheckError Geom)) (messages : List String) (ids : LayerIdMap)
    (unionGeom envelope bufEnvelope diffGeom : Geom)
    (h : StagesSucceed ctx ids unionGeom envelope bufEnvelope diffGeom) :
    collectErrors ctx errors messages ids =
        some (errors ++ reportedRecords ctx (usedFeatureIds ctx ids) bufEnvelope diffGeom,
          messages) ∧
      (∀ iPart : Nat,
        ctx.boundingBox (ctx.getGeomPart diffGeom iPart) = ctx.boundingBox bufEnvelope →
        gapPartError ctx (usedFeatureIds ctx ids) bufEnvelope diffGeom iPart = none) ∧
      ((∀ iPart : Nat, iPart < ctx.partCount diffGeom →
          ctx.boundingBox (ctx.getGeomPart diffGeom iPart) = ctx.boundingBox bufEnvelope) →
        collectErrors ctx errors messages ids = some (errors, messages)) := by
  have hmain := collectErrors_of_stages ctx errors messages ids unionGeom envelope bufEnvelope
    diffGeom h
  refine ⟨hmain, ?_, ?_⟩
  · intro iPart hbox
    rw [gapPartError_eq, if_neg]
    intro hrep
    exact hrep.1 hbox
  · intro hall
    rw [hmain]
    have hrec : reportedRecords ctx (usedFeatureIds ctx ids) bufEnvelope diffGeom = [] := by
      unfold reportedRecords
      rw [List.map_eq_nil_iff, List.filter_eq_nil_iff]
      intro iPart hi hrep
      rw [decide_eq_true_eq] at hrep
      exact hrep.1 (hall iPart (List.mem_range.1 hi))
    rw [hrec, List.append_nil]

/-- Witness of C10: over the ring every stage succeeds and the pass appends the
records of the reported parts of the ring difference. -/
theorem collectErrors_reports_exactly_witness :
    StagesSucceed Grid.ringContext [] Grid.ringUnion Grid.ringEnvelope Grid.ringBuffer
        Grid.ringDifference ∧
      collectErrors Grid.ringContext [] [] [] =
        some ([] ++ reportedRecords Grid.ringContext (usedFeatureIds Grid.ringContext [])
          Grid.ringBuffer Grid.ringDifference, []) :=
  ⟨ring_stages,
    (collectErrors_reports_exactly Grid.ringContext [] [] [] Grid.ringUnion Grid.ringEnvelope
      Grid.ringBuffer Grid.ringDifference ring_stages).1⟩

/-- The stages whose result the pass tests: when the union, the envelope or the
difference is null, the pass appends no record and appends the message made of
"Gap check: " and the `errMsg` left by that stage. -/
theorem collectErrors_checked_stage_failure (ctx : Context Geom)
    (errors : List (QgsGeometryGapCheckError Geom)) (messages : List String) (ids : LayerIdMap)
    (hne : (collectedGeoms ctx ids).isEmpty = false) :
    ((combineStage ctx ids).1 = none →
      collectErrors ctx errors messages ids =
        some (errors, messages ++ ["Gap check: " ++ (combineStage ctx ids).2])) ∧
    (∀ unionGeom, (combineStage ctx ids).1 = some unionGeom →
      (envelopeStage ctx ids unionGeom).1 = none →
      collectErrors ctx errors messages ids =
        some (errors, messages ++ ["Gap check: " ++ (envelopeStage ctx ids unionGeom).2])) ∧
    (∀ unionGeom envelope, (combineStage ctx ids).1 = some unionGeom →
      (envelopeStage ctx ids unionGeom).1 = some envelope →
      (differenceStage ctx ids unionGeom (bufferStage ctx envelope)).1 = none →
      collectErrors ctx errors messages ids =
        some (errors, messages ++
          ["Gap check: " ++ (differenceStage ctx ids unionGeom (bufferStage ctx envelope)).2]))
    := by
  refine ⟨?_, ?_, ?_⟩
  · intro h1
    unfold collectErrors
    simp only [hne, h1]
    simp
  · intro unionGeom h1 h2
    unfold collectErrors
    simp only [hne, h1, h2]
    simp
  · intro unionGeom envelope h1 h2 h3
    unfold collectErrors
    simp only [hne, h1, h2, h3]
    simp

/-- The buffer stage is not tested: when it returns null and the difference of
the null operand is a geometry, the pass appends no message; it completes only
if that geometry has no part. -/
theorem collectErrors_buffer_unchecked (ctx : Context Geom)
    (errors : List (QgsGeometryGapCheckError Geom)) (messages : List String) (ids : LayerIdMap)
    (unionGeom envelope diffGeom : Geom)
    (hne : (collectedGeoms ctx ids).isEmpty = false)
    (h1 : (combineStage ctx ids).1 = some unionGeom)
    (h2 : (envelopeStage ctx ids unionGeom).1 = some envelope)
    (hb : bufferStage ctx envelope = none)
    (h3 : (differenceStage ctx ids unionGeom none).1 = some diffGeom) :
    collectErrors ctx errors messages ids =
      if ctx.partCount diffGeom = 0 then some (errors, messages) else none := by
  unfold collectErrors
  simp only [hne, h1, h2, hb, h3]
  cases hn : ctx.partCount diffGeom with
  | zero => simp [gapLoop]
  | succ n => simp [List.range_succ_eq_map, gapLoop]

/-- C4: at an engine whose buffer call returns null the pass does not report
the buffer stage.  With the difference of a null operand null (and `errMsg`
untouched) the appended message is "Gap check: " with an empty text; with a
difference that takes a null operand for the empty geometry no message is
appended at all. -/
theorem collectErrors_buffer_failure_unreported :
    bufferStage Grid.bufferFailContext Grid.ringEnvelope = none ∧
      collectErrors Grid.bufferFailContext [] [] [] = some ([], ["Gap check: "]) ∧
      collectErrors Grid.bufferFailLenientContext [] [] [] = some ([], []) := by
  decide

/-- C9, as the scenario is worded: detection over the three squares (0,0),
(1,0), (0,1), with thresholds that admit area 1, does not yield exactly one
record of area 1. -/
theorem three_squares_scenario_refuted :
    ¬ ∃ e messages,
      collectErrors (Grid.context Grid.threeSquares (mkRat 1 10) (mkRat 1 100) 10) [] []
          Grid.threeSquaresIds = some ([e], messages) ∧
        e.area = 1 := by
  rintro ⟨e, messages, h, -⟩
  rw [three_squares_detection] at h
  simp at h

/-- C9, amended: over the three squares (0,0), (1,0), (0,1) every stage
succeeds, the difference of the buffered envelope and the union has a single
part (the missing square (1,1) joins the outer band), its box equals the box of
the buffered envelope, and detection yields no gap record, whatever the
thresholds. -/
theorem three_squares_yield_no_gap (tol red thr : ℚ) :
    StagesSucceed (Grid.context Grid.threeSquares tol red thr) Grid.threeSquaresIds
        Grid.threeUnion Grid.threeEnvelope Grid.threeBuffer Grid.threeDifference ∧
      (Grid.context Grid.threeSquares tol red thr).partCount Grid.threeDifference = 1 ∧
      (Grid.context Grid.threeSquares tol red thr).boundingBox
          ((Grid.context Grid.threeSquares tol red thr).getGeomPart Grid.threeDifference 0) =
        (Grid.context Grid.threeSquares tol red thr).boundingBox Grid.threeBuffer ∧
      collectErrors (Grid.context Grid.threeSquares tol red thr) [] [] Grid.threeSquaresIds =
        some ([], []) := by
  refine ⟨three_squares_stages tol red thr, three_squares_parts, ?_,
    three_squares_detection tol red thr⟩
  show Grid.boundingBox (Grid.getGeomPart Grid.threeDifference 0) = _
  rw [three_squares_part0]
  exact three_squares_box

/-! ## Auxiliary facts about the merge search -/

theorem foldl_flatMap_eq {α β σ : Type} (f : σ → β → σ) (g : α → List β) (l : List α)
    (s : σ) : (l.flatMap g).foldl f s = l.foldl (fun s a => (g a).foldl f s) s := by
  induction l generalizing s with
  | nil => rfl
  | cons a rest ih => simp [List.flatMap_cons, List.foldl_append, ih]

/-- The feature loop folds the search step over the candidates of the feature. -/
theorem featureStep_eq (ctx : Context Geom) (errLayerGeom : Geom) (layerId : String)
    (st : MergeSearch Geom) (testId : Int) :
    featureStep ctx errLayerGeom layerId st testId =
      (featureCandidates ctx errLayerGeom layerId testId).foldl MergeSearch.take st := by
  unfold featureStep featureCandidates
  cases ctx.getFeature layerId testId with
  | none => rfl
  | some f =>
    simp only [List.foldl_map]
    rfl

/-- The search folds the search step over all candidates, in iteration order. -/
theorem mergeSearch_eq (ctx : Context Geom) (err : QgsGeometryGapCheckError Geom) :
    mergeSearch ctx err = (candidates ctx err).foldl MergeSearch.take MergeSearch.init := by
  have hlayer : layerStep ctx err (ctx.getGeomPart err.geometry 0) =
      fun st layerId => (layerCandidates ctx err layerId).foldl MergeSearch.take st := by
    funext st layerId
    unfold layerStep layerCandidates
    rw [foldl_flatMap_eq]
    have hfeat : featureStep ctx
        (ctx.reverseLayerTransform layerId (ctx.getGeomPart err.geometry 0)) layerId =
        fun st1 testId => (featureCandidates ctx
          (ctx.reverseLayerTransform layerId (ctx.getGeomPart err.geometry 0)) layerId
          testId).foldl MergeSearch.take st1 := by
      funext st1 testId
      exact featureStep_eq ctx _ layerId st1 testId
    simp only [hfeat]
  unfold mergeSearch candidates
  rw [foldl_flatMap_eq]
  simp only [hlayer]

/-- A fold of the search step either keeps the state, no candidate being
longer than the running maximum, or ends on the first longest candidate. -/
theorem foldl_take (cs : List (Candidate Geom)) (st : MergeSearch Geom) :
    (cs.foldl MergeSearch.take st = st ∧ ∀ c ∈ cs, c.len ≤ st.maxVal) ∨
      ∃ c, IsFirstLongest cs c ∧ st.maxVal < c.len ∧
        cs.foldl MergeSearch.take st = MergeSearch.ofCandidate c := by
  induction cs generalizing st with
  | nil =>
    left
    simp
  | cons c rest ih =>
    simp only [List.foldl_cons]
    by_cases hc : c.len > st.maxVal
    · have htake : st.take c = MergeSearch.ofCandidate c := if_pos hc
      rw [htake]
      rcases ih (MergeSearch.ofCandidate c) with ⟨heq, hall⟩ | ⟨c1, hfl, hlt, heq⟩
      · right
        exact ⟨c, ⟨[], rest, rfl, by simp, hall⟩, hc, heq⟩
      · right
        obtain ⟨before, after, hsplit, hb, ha⟩ := hfl
        refine ⟨c1, ⟨c :: before, after, by simp [hsplit], ?_, ha⟩, lt_trans hc hlt, heq⟩
        intro d hd
        rcases List.mem_cons.1 hd with h | h
        · subst h
          exact hlt
        · exact hb d h
    · have htake : st.take c = st := if_neg hc
      rw [htake]
      rcases ih st with ⟨heq, hall⟩ | ⟨c1, hfl, hlt, heq⟩
      · left
        refine ⟨heq, ?_⟩
        intro d hd
        rcases List.mem_cons.1 hd with h | h
        · subst h
          exact not_lt.1 hc
        · exact hall d h
      · right
        obtain ⟨before, after, hsplit, hb, ha⟩ := hfl
        refine ⟨c1, ⟨c :: before, after, by simp [hsplit], ?_, ha⟩, hlt, heq⟩
        intro d hd
        rcases List.mem_cons.1 hd with h | h
        · subst h
          exact lt_of_le_of_lt (not_lt.1 hc) hlt
        · exact hb d h

theorem IsFirstLongest.mem {cs : List (Candidate Geom)} {c : Candidate Geom}
    (h : IsFirstLongest cs c) : c ∈ cs := by
  obtain ⟨before, after, hsplit, -, -⟩ := h
  rw [hsplit]
  simp

/-- Without a candidate of positive length the search ends as it started. -/
theorem mergeSearch_none (ctx : Context Geom) (err : QgsGeometryGapCheckError Geom)
    (h : ∀ c ∈ candidates ctx err, ¬ 0 < c.len) : mergeSearch ctx err = MergeSearch.init := by
  rw [mergeSearch_eq]
  rcases foldl_take (candidates ctx err) MergeSearch.init with ⟨heq, -⟩ | ⟨c, hfl, hlt, -⟩
  · exact heq
  · exact absurd hlt (h c hfl.mem)

/-- With a candidate of positive length the search ends on the first longest
candidate. -/
theorem mergeSearch_found (ctx : Context Geom) (err : QgsGeometryGapCheckError Geom)
    (h : ∃ c ∈ candidates ctx err, 0 < c.len) :
    ∃ c, IsFirstLongest (candidates ctx err) c ∧ 0 < c.len ∧
      mergeSearch ctx err = MergeSearch.ofCandidate c := by
  rw [mergeSearch_eq]
  rcases foldl_take (candidates ctx err) MergeSearch.init with ⟨-, hall⟩ | ⟨c, hfl, hlt, heq⟩
  · obtain ⟨c, hc, hpos⟩ := h
    exact absurd hpos (not_lt.2 (hall c hc))
  · exact ⟨c, hfl, hlt, heq⟩

/-- Without a candidate of positive length nothing is merged. -/
theorem mergeWithNeighbor_of_none (ctx : Context Geom) (err : QgsGeometryGapCheckError Geom)
    (changes : Changes Geom) (errMsg : String)
    (h : ∀ c ∈ candidates ctx err, ¬ 0 < c.len) :
    mergeWithNeighbor ctx err changes errMsg = some (false, changes, errMsg) := by
  unfold mergeWithNeighbor
  simp [mergeSearch_none ctx err h, MergeSearch.init]

/-- Once the search ended on candidate `c`, the outcome is decided by the union
with the part of `c`. -/
theorem mergeWithNeighbor_of_target (ctx : Context Geom) (err : QgsGeometryGapCheckError Geom)
    (changes : Changes Geom) (errMsg : String) (c : Candidate Geom)
    (hs : mergeSearch ctx err = MergeSearch.ofCandidate c) (hpos : 0 < c.len) :
    mergeWithNeighbor ctx err changes errMsg =
      match (unionWithTarget ctx err c errMsg).1 with
      | none => some (false, changes, (unionWithTarget ctx err c errMsg).2)
      | some g =>
        if ctx.isEmpty g || !ctx.isSingleType g then
          some (false, changes, (unionWithTarget ctx err c errMsg).2)
        else
          some (true, changes ++ [instructionFor c g], (unionWithTarget ctx err c errMsg).2) := by
  unfold mergeWithNeighbor
  simp only [hs, MergeSearch.ofCandidate, if_neg (ne_of_gt hpos)]
  rfl

/-- The candidates are the parts of the fetchable features of the neighbour
map, each with its shared-edge length against the gap shape in the layer. -/
theorem mem_candidates (ctx : Context Geom) (err : QgsGeometryGapCheckError Geom)
    (c : Candidate Geom) :
    c ∈ candidates ctx err ↔
      ∃ layerId ∈ err.neighbors.keys, ∃ fid ∈ err.neighbors.value layerId,
        ∃ f, ctx.getFeature layerId fid = some f ∧ ∃ iPart : Nat,
          iPart < ctx.partCount f.geometry ∧
          c = { layerId := layerId, feature := f, partIdx := iPart,
                len := ctx.sharedEdgeLength
                  (ctx.reverseLayerTransform layerId (ctx.getGeomPart err.geometry 0))
                  (ctx.getGeomPart f.geometry iPart) ctx.reducedTolerance } := by
  unfold candidates layerCandidates
  simp only [List.mem_flatMap]
  constructor
  · rintro ⟨layerId, hl, fid, hf, hc⟩
    refine ⟨layerId, hl, fid, hf, ?_⟩
    unfold featureCandidates at hc
    cases hget : ctx.getFeature layerId fid with
    | none => simp [hget] at hc
    | some f =>
      simp only [hget, List.mem_map, List.mem_range] at hc
      obtain ⟨iPart, hi, rfl⟩ := hc
      exact ⟨f, rfl, iPart, hi, rfl⟩
  · rintro ⟨layerId, hl, fid, hf, f, hget, iPart, hi, rfl⟩
    refine ⟨layerId, hl, fid, hf, ?_⟩
    unfold featureCandidates
    simp only [hget, List.mem_map, List.mem_range]
    exact ⟨iPart, hi, rfl⟩

/-- Merging the gap of the ring: the four touching squares tie at length 1 and
the first of them, square 2, receives the gap. -/
theorem ring_merge :
    mergeWithNeighbor Grid.ringContext Grid.ringGap [] "" =
      some (true,
        [{ layerId := "polygons", feature := { id := 2, geometry := [(1, 0)] }, partIdx := 0,
           newPartGeom := [(1, 1), (1, 0)] }], "") := by
  rfl

/-! ## Resolution: the claims -/

/-- C5: when some candidate (neighbour layer, fetchable neighbour feature, part
index) has positive shared-edge length with the gap shape transformed to the
layer, `mergeWithNeighbor` targets the first candidate, in iteration order, that
attains the maximal length: the outcome is that of the union with this part,
and the replacement issued names exactly its layer, feature and part index. -/
theorem mergeWithNeighbor_targets_first_longest (ctx : Context Geom)
    (err : QgsGeometryGapCheckError Geom) (changes : Changes Geom) (errMsg : String)
    (h : ∃ c ∈ candidates ctx err, 0 < c.len) :
    ∃ c, IsFirstLongest (candidates ctx err) c ∧ 0 < c.len ∧
      mergeWithNeighbor ctx err changes errMsg =
        match (unionWithTarget ctx err c errMsg).1 with
        | none => some (false, changes, (unionWithTarget ctx err c errMsg).2)
        | some g =>
          if ctx.isEmpty g || !ctx.isSingleType g then
            some (false, changes, (unionWithTarget ctx err c errMsg).2)
          else
            some (true,
              changes ++ [{ layerId := c.layerId, feature := c.feature, partIdx := c.partIdx,
                            newPartGeom := g }],
              (unionWithTarget ctx err c errMsg).2) := by
  obtain ⟨c, hfl, hpos, hs⟩ := mergeSearch_found ctx err h
  exact ⟨c, hfl, hpos, mergeWithNeighbor_of_target ctx err changes errMsg c hs hpos⟩

/-- Witness of C5: the gap of the ring has a candidate of positive length, and
a first longest candidate is targeted. -/
theorem mergeWithNeighbor_targets_first_longest_witness :
    (∃ c ∈ candidates Grid.ringContext Grid.ringGap, 0 < c.len) ∧
      ∃ c, IsFirstLongest (candidates Grid.ringContext Grid.ringGap) c ∧ 0 < c.len :=
  ⟨by decide,
    (mergeWithNeighbor_targets_first_longest Grid.ringContext Grid.ringGap [] ""
      (by decide)).imp fun _ hc => ⟨hc.1, hc.2.1⟩⟩

/-- C6: when no part of any fetchable neighbour feature has positive
shared-edge length with the gap shape (an empty neighbour map and failing
fetches included), `mergeWithNeighbor` returns false and leaves the changes as
they were, and `fixError` with `MergeLongestEdge` marks the error fix-failed. -/
theorem fixError_no_merge_found (ctx : Context Geom) (err : QgsGeometryGapCheckError Geom)
    (changes : Changes Geom) (errMsg : String)
    (h : ∀ c ∈ candidates ctx err, ¬ 0 < c.len) :
    mergeWithNeighbor ctx err changes errMsg = some (false, changes, errMsg) ∧
      fixError ctx err MergeLongestEdge changes =
        some (err.setFixFailed "Failed to merge with neighbor: ", changes) := by
  refine ⟨mergeWithNeighbor_of_none ctx err changes errMsg h, ?_⟩
  unfold fixError
  rw [mergeWithNeighbor_of_none ctx err changes "" h]
  simp [MergeLongestEdge, NoChange, QgsGeometryGapCheckError.setFixFailed]

/-- Witness of C6: a gap whose neighbour map names a square that shares no edge
with it and a feature that cannot be fetched. -/
theorem fixError_no_merge_found_witness :
    (∀ c ∈ candidates Grid.ringContext Grid.looseGap, ¬ 0 < c.len) ∧
      fixError Grid.ringContext Grid.looseGap MergeLongestEdge [] =
        some (Grid.looseGap.setFixFailed "Failed to merge with neighbor: ", []) :=
  ⟨by decide, (fixError_no_merge_found Grid.ringContext Grid.looseGap [] "" (by decide)).2⟩

/-- C7: with a winning merge candidate, if the union of the transformed gap
shape with the winning part is null, empty or not of a single-part type, then
`mergeWithNeighbor` returns false with the `errMsg` of the engine and leaves the
changes as they were, and `fixError` marks the error fix-failed with a message
that carries that `errMsg`; a replacement is issued only when the union is
non-null, non-empty and single-part, and its geometry is that union. -/
theorem mergeWithNeighbor_degenerate_union (ctx : Context Geom)
    (err : QgsGeometryGapCheckError Geom) (changes : Changes Geom)
    (h : ∃ c ∈ candidates ctx err, 0 < c.len) :
    ∃ c, IsFirstLongest (candidates ctx err) c ∧ 0 < c.len ∧
      (∀ errMsg, IsDegenerate ctx (unionWithTarget ctx err c errMsg).1 →
        mergeWithNeighbor ctx err changes errMsg =
          some (false, changes, (unionWithTarget ctx err c errMsg).2)) ∧
      (IsDegenerate ctx (unionWithTarget ctx err c "").1 →
        fixError ctx err MergeLongestEdge changes =
          some (err.setFixFailed
            ("Failed to merge with neighbor: " ++ (unionWithTarget ctx err c "").2), changes)) ∧
      (∀ errMsg flag changes1 msg,
        mergeWithNeighbor ctx err changes errMsg = some (flag, changes1, msg) →
        (flag = false ∧ changes1 = changes) ∨
          (flag = true ∧ ∃ g, (unionWithTarget ctx err c errMsg).1 = some g ∧
            ctx.isEmpty g = false ∧ ctx.isSingleType g = true ∧
            changes1 = changes ++ [{ layerId := c.layerId, feature := c.feature,
                                     partIdx := c.partIdx, newPartGeom := g }])) := by
  obtain ⟨c, hfl, hpos, hs⟩ := mergeSearch_found ctx err h
  have hdeg : ∀ errMsg, IsDegenerate ctx (unionWithTarget ctx err c errMsg).1 →
      mergeWithNeighbor ctx err changes errMsg =
        some (false, changes, (unionWithTarget ctx err c errMsg).2) := by
    intro errMsg hd
    rw [mergeWithNeighbor_of_target ctx err changes errMsg c hs hpos]
    rcases hr : (unionWithTarget ctx err c errMsg).1 with _ | g
    · rfl
    · rw [hr] at hd
      have hcond : (ctx.isEmpty g || !ctx.isSingleType g) = true := by
        rcases hd with hd | hd
        · simp [hd]
        · simp [hd]
      simp [hcond]
  refine ⟨c, hfl, hpos, hdeg, ?_, ?_⟩
  · intro hd
    unfold fixError
    rw [hdeg "" hd]
    simp [MergeLongestEdge, NoChange, QgsGeometryGapCheckError.setFixFailed]
  · intro errMsg flag changes1 msg hres
    rw [mergeWithNeighbor_of_target ctx err changes errMsg c hs hpos] at hres
    rcases hr : (unionWithTarget ctx err c errMsg).1 with _ | g
    · rw [hr] at hres
      simp only [Option.some.injEq, Prod.mk.injEq] at hres
      exact Or.inl ⟨hres.1.symm, hres.2.1.symm⟩
    · rw [hr] at hres
      by_cases hcond : (ctx.isEmpty g || !ctx.isSingleType g) = true
      · simp only [hcond, if_true, Option.some.injEq, Prod.mk.injEq] at hres
        exact Or.inl ⟨hres.1.symm, hres.2.1.symm⟩
      · simp only [hcond, Bool.false_eq_true, if_false, Option.some.injEq, Prod.mk.injEq,
          instructionFor] at hres
        right
        refine ⟨hres.1.symm, g, rfl, ?_, ?_, hres.2.1.symm⟩
        · cases hE : ctx.isEmpty g
          · rfl
          · simp [hE] at hcond
        · cases hS : ctx.isSingleType g
          · simp [hS] at hcond
          · rfl

/-- Witness of C7: over the ring with an engine whose union fails, the error is
marked fix-failed with the message of the engine and nothing is changed. -/
theorem mergeWithNeighbor_degenerate_union_witness :
    (∃ c ∈ candidates Grid.unionFailContext Grid.ringGap, 0 < c.len) ∧
      fixError Grid.unionFailContext Grid.ringGap MergeLongestEdge [] =
        some (Grid.ringGap.setFixFailed ("Failed to merge with neighbor: " ++ "union failed"),
          []) :=
  ⟨by decide, by
    obtain ⟨c, -, -, -, hfix, -⟩ :=
      mergeWithNeighbor_degenerate_union Grid.unionFailContext Grid.ringGap [] (by decide)
    exact hfix trivial⟩

/-- C8: `fixError` with `NoChange` leaves the changes as they were and marks the
error fixed with that method; with a method that is neither `NoChange` nor
`MergeLongestEdge` it leaves the changes as they were and marks the error
fix-failed with the message "Unknown method".  Nothing but the status of the
error is altered. -/
theorem fixError_no_change_and_unknown (ctx : Context Geom)
    (error : QgsGeometryGapCheckError Geom) (changes : Changes Geom) :
    fixError ctx error NoChange changes =
        some (error.setFixed NoChange, changes) ∧
      ∀ method : Int, method ≠ NoChange → method ≠ MergeLongestEdge →
        fixError ctx error method changes =
          some (error.setFixFailed "Unknown method", changes) := by
  constructor
  · simp [fixError, QgsGeometryGapCheckError.setFixed]
  · intro method h1 h2
    simp [fixError, h1, h2, QgsGeometryGapCheckError.setFixFailed]

/-- Witness of C8: the method 2 is neither of the two supported ones. -/
theorem fixError_no_change_and_unknown_witness :
    ((2 : Int) ≠ NoChange ∧ (2 : Int) ≠ MergeLongestEdge) ∧
      fixError Grid.ringContext Grid.ringGap 2 [] =
        some (Grid.ringGap.setFixFailed "Unknown method", []) :=
  ⟨⟨by decide, by decide⟩,
    (fixError_no_change_and_unknown Grid.ringContext Grid.ringGap []).2 2 (by decide)
      (by decide)⟩

end GapCheck
